import Mathlib

/-!
# Verification of the oscilloscope core: ring buffer, geometry generator and shaders

Shallow embedding of the audio/visual core of the repository:

* `RingBuffer` namespace — the `VertexAudioProcessor` audio-worklet ring buffer
  (`ensureBuffer`, `appendSamples`, the read side of `process`, `handleAppend`).
* `SabEngine` namespace — the SharedArrayBuffer peek reader of `DebugAudioEngine`
  (`getSamplesForChannel`).
* `WoscopeVertexUtils` / `WoscopeVertexUtilsOld` — the two versions of
  `createVertexDataFromAudio` (interleaved 5-float layout, older 4-float layout).
* `Shaders` namespace — the woscope vertex/fragment shader arithmetic and the
  renderer's `computeNormalizedIntensity`.

Modelling conventions: JavaScript numbers and `Float32Array` cells are modelled as
exact rationals `ℚ` (GLSL floats as reals `ℝ` where transcendental functions occur);
floating-point rounding is not modelled.  `Uint16Array` index storage is modelled
faithfully as reduction modulo `2 ^ 16`.  The monotonically increasing write/read
counters are modelled as `ℕ`; the reachable states of the processor keep
`readIndex ≤ writeIndex`, so truncated subtraction agrees with JS subtraction
everywhere it is used.
-/

namespace RingBuffer

/-- One channel record of `VertexAudioProcessor.channels` (part_001, lines 10-19).
`buffer = none` models a `null` Float32Array. -/
structure Channel where
  buffer : Option (Nat → ℚ)
  capacity : Nat
  writeIndex : Nat
  readIndex : Nat
  gain : ℚ
  lastSample : ℚ

/-- `nextPow2` (part_001, lines 35-38): `1 << (32 - clz32 (n-1))` is the least power
of two that is `≥ n`, i.e. `2 ^ (n-1).size`, for `2 < n < 2^32`. -/
def nextPow2 (n : Nat) : Nat :=
  if n ≤ 2 then 2 else 2 ^ (n - 1).size

/-- `ensureBuffer` (part_001, lines 40-64): allocate or grow a channel's ring storage.
The `!ch.buffer || ch.capacity < minCapacity` guard is split on the option. -/
def ensureBuffer (defaultCapacity : Nat) (ch : Channel) (minCapacity : Nat) : Channel :=
  match ch.buffer with
  | none =>
      let target := nextPow2 (max defaultCapacity minCapacity)
      { ch with buffer := some (fun _ => 0), capacity := target,
                writeIndex := 0, readIndex := 0 }
  | some oldBuffer =>
      if ch.capacity < minCapacity then
        let target := nextPow2 (max defaultCapacity minCapacity)
        let oldCap := ch.capacity
        let available := ch.writeIndex - ch.readIndex
        let toCopy := min available target
        let newBuf : Nat → ℚ := fun i =>
          if i < toCopy then oldBuffer ((ch.readIndex + (available - toCopy) + i) &&& (oldCap - 1))
          else 0
        { ch with buffer := some newBuf, capacity := target,
                  readIndex := 0, writeIndex := toCopy }
      else ch

/-- One iteration of the `appendSamples` write loop (part_001, lines 73-82):
store the sample at `writeIndex & mask`, advance `writeIndex`, and on overflow
force `readIndex` forward and count one dropped sample. -/
def appendStep (cap : Nat) (s : ℚ) (acc : Channel × Nat) : Channel × Nat :=
  let ch := acc.1
  let mask := cap - 1
  let ch1 : Channel :=
    { ch with buffer := ch.buffer.map (fun f => Function.update f (ch.writeIndex &&& mask) s),
              writeIndex := ch.writeIndex + 1 }
  let acc2 : Channel × Nat :=
    if ch1.writeIndex - ch1.readIndex > cap then
      ({ ch1 with readIndex := ch1.writeIndex - cap }, acc.2 + 1)
    else (ch1, acc.2)
  ({ acc2.1 with lastSample := s }, acc2.2)

/-- `appendSamples` (part_001, lines 66-83), acting on one channel together with the
processor-global `droppedSamples` counter. -/
def appendSamples (defaultCapacity : Nat) (ch : Channel) (dropped : Nat)
    (samples : List ℚ) : Channel × Nat :=
  if samples.length = 0 then (ch, dropped)
  else
    let ch1 := ensureBuffer defaultCapacity ch
      (if ch.capacity = 0 then samples.length else ch.capacity)
    samples.foldl (fun acc s => appendStep ch1.capacity s acc) (ch1, dropped)

/-- The consumer read of one channel inside `process` (part_001, lines 197-217):
read `min frameCount available` samples, zero-fill the remainder, advance
`readIndex`, count an underrun when starved. -/
def processChannel (globalGain : ℚ) (frameCount : Nat) (ch : Channel)
    (underruns : Nat) : Channel × List ℚ × Nat :=
  match ch.buffer with
  | none => (ch, List.replicate frameCount 0, underruns)
  | some b =>
      let available := ch.writeIndex - ch.readIndex
      let toRead := min frameCount available
      let mask := ch.capacity - 1
      let out := (List.range frameCount).map (fun i =>
        if i < toRead then b ((ch.readIndex + i) &&& mask) * ch.gain * globalGain else 0)
      ({ ch with readIndex := ch.readIndex + toRead }, out,
       if toRead < frameCount then underruns + 1 else underruns)

/-- The spec's ring-buffer well-formedness: the unread span never exceeds capacity
(and the consumer never overtakes the producer). -/
def WF (ch : Channel) : Prop :=
  ch.readIndex ≤ ch.writeIndex ∧ ch.writeIndex - ch.readIndex ≤ ch.capacity

/-- The fixed channel-name list of the processor (part_001, line 6). -/
def channelNames : List String :=
  ["screenX", "screenY", "screenZ", "r", "g", "b"]

/-- Processor-level state: the per-name channel map plus the global fields that
`handleAppend`/`appendSamples` touch. -/
structure Proc where
  channels : String → Channel
  defaultCapacity : Nat
  droppedSamples : Nat

/-- `this.appendSamples(name, arr)` at processor level. -/
def procAppend (p : Proc) (name : String) (samples : List ℚ) : Proc :=
  let r := appendSamples p.defaultCapacity (p.channels name) p.droppedSamples samples
  { p with channels := Function.update p.channels name r.1, droppedSamples := r.2 }

/-- The batch-length consistency scan of `handleAppend` (part_001, lines 131-141):
`none` models the aborting early `return` on a length mismatch, `some acc` the
batch length found so far (`some none` = no non-empty array seen). -/
def scanBatch (data : String → Option (List ℚ)) :
    Option Nat → List String → Option (Option Nat)
  | acc, [] => some acc
  | acc, n :: rest =>
      match data n with
      | none => scanBatch data acc rest
      | some arr =>
          if arr.length = 0 then scanBatch data acc rest
          else
            match acc with
            | none => scanBatch data (some arr.length) rest
            | some b => if arr.length = b then scanBatch data acc rest else none

/-- `handleAppend` (part_001, lines 129-150): scan for a consistent batch length,
then append every channel whose array has exactly that length. -/
def handleAppend (p : Proc) (data : String → Option (List ℚ)) : Proc :=
  match scanBatch data none channelNames with
  | none => p
  | some none => p
  | some (some b) =>
      if b = 0 then p
      else
        channelNames.foldl (fun acc name =>
          match data name with
          | some arr => if arr.length = b then procAppend acc name arr else acc
          | none => acc) p

end RingBuffer

namespace SabEngine

/-- The SharedArrayBuffer state of `DebugAudioEngine` (part_013): the flat
`Float32Array` of `channels × capacity` samples and the two atomic control
counters (`ctrl[0]` = write index, `ctrl[1]` = read index). -/
structure Sab where
  capacity : Nat
  channels : Nat
  samples : Nat → ℚ
  write : Nat
  read : Nat

/-- Contiguous copy of `n` cells starting at flat index `a`
(a `Float32Array.subarray`/`set` pair). -/
def slice (f : Nat → ℚ) (a : Nat) : Nat → List ℚ
  | 0 => []
  | n + 1 => f a :: slice f (a + 1) n

/-- `getSamplesForChannel` (part_013, lines 252-277): peek up to `outLen` samples
ending at `endSample` (clamped to the latest write) for a channel, returning the
copy count, the copied data, and the state as left behind by the call. -/
def getSamplesForChannel (st : Sab) (channelIndex : Nat) (endSample : Int)
    (outLen : Nat) : Nat × List ℚ × Sab :=
  if channelIndex < st.channels then
    let write := st.write
    let latestSample : Int := (write : Int) - 1
    if latestSample < 0 then (0, [], st)
    else
      let endS : Int := min endSample latestSample
      let capacity := st.capacity
      let available : Int := endS + 1
      let toReadI : Int := min (outLen : Int) available
      if toReadI ≤ 0 then (0, [], st)
      else
        let toRead := toReadI.toNat
        let startSample := (endS + 1 - toReadI).toNat
        let base := channelIndex * capacity
        let startIdx := startSample &&& (capacity - 1)
        let out :=
          if startIdx + toRead ≤ capacity then slice st.samples (base + startIdx) toRead
          else
            let first := capacity - startIdx
            slice st.samples (base + startIdx) first ++ slice st.samples base (toRead - first)
        (toRead, out, st)
  else (0, [], st)

end SabEngine

/-- Concatenation of the per-iteration emissions of a `for (i = 0; i < n; i++)`
loop that pushes a fixed-size block each iteration. -/
def rangeFlat {α : Type} (f : Nat → List α) : Nat → List α
  | 0 => []
  | n + 1 => rangeFlat f n ++ f n

/-- `WoscopeConfig` (part_020/part_021, identical in both versions). -/
structure WoscopeConfig where
  nSamples : Nat
  timeScale : ℚ
  amplitudeScale : ℚ
  sweep : Bool
  swap : Bool

/-- `WoscopeVertexData`: vertex buffer cells (`Float32Array`, modelled exactly),
index buffer cells (`Uint16Array`, modelled mod `2^16`), and the segment count. -/
structure WoscopeVertexData where
  vertices : List ℚ
  indices : List Nat
  numSegments : Nat

/-- Channel access `channel[i]`; in-range in every use below. -/
def chGet (l : List ℚ) (i : Nat) : ℚ := l.getD i 0

namespace WoscopeVertexUtils

/-- `t1` of segment `i` (part_020, lines 59-71): sweep ramp `(i/(numSegments-1))·timeScale`
or the scaled first-channel sample. -/
def segT1 (left right : List ℚ) (startSample : Nat) (cfg : WoscopeConfig)
    (n i : Nat) : ℚ :=
  if cfg.sweep then ((i : ℚ) / ((n : ℚ) - 1)) * cfg.timeScale
  else (if cfg.swap then chGet right (startSample + i) else chGet left (startSample + i))
        * cfg.amplitudeScale

/-- `scaledY1` of segment `i` (part_020, lines 60-66). -/
def segY1 (left right : List ℚ) (startSample : Nat) (cfg : WoscopeConfig) (i : Nat) : ℚ :=
  (if cfg.swap then chGet left (startSample + i) else chGet right (startSample + i))
    * cfg.amplitudeScale

/-- `t2` of segment `i` (part_020, lines 61-72). -/
def segT2 (left right : List ℚ) (startSample : Nat) (cfg : WoscopeConfig)
    (n i : Nat) : ℚ :=
  if cfg.sweep then (((i : ℚ) + 1) / ((n : ℚ) - 1)) * cfg.timeScale
  else (if cfg.swap then chGet right (startSample + i + 1) else chGet left (startSample + i + 1))
        * cfg.amplitudeScale

/-- `scaledY2` of segment `i` (part_020, lines 62-68). -/
def segY2 (left right : List ℚ) (startSample : Nat) (cfg : WoscopeConfig) (i : Nat) : ℚ :=
  (if cfg.swap then chGet left (startSample + i + 1) else chGet right (startSample + i + 1))
    * cfg.amplitudeScale

/-- The 20 interleaved floats `[aStart.x, aStart.y, aEnd.x, aEnd.y, aIdx] × 4 corners`
pushed for segment `i` (part_020, lines 74-103). -/
def segBlock (left right : List ℚ) (startSample : Nat) (cfg : WoscopeConfig)
    (n i : Nat) : List ℚ :=
  [segT1 left right startSample cfg n i, segY1 left right startSample cfg i,
   segT2 left right startSample cfg n i, segY2 left right startSample cfg i,
   ((i * 4 + 0 : Nat) : ℚ),
   segT1 left right startSample cfg n i, segY1 left right startSample cfg i,
   segT2 left right startSample cfg n i, segY2 left right startSample cfg i,
   ((i * 4 + 1 : Nat) : ℚ),
   segT1 left right startSample cfg n i, segY1 left right startSample cfg i,
   segT2 left right startSample cfg n i, segY2 left right startSample cfg i,
   ((i * 4 + 2 : Nat) : ℚ),
   segT1 left right startSample cfg n i, segY1 left right startSample cfg i,
   segT2 left right startSample cfg n i, segY2 left right startSample cfg i,
   ((i * 4 + 3 : Nat) : ℚ)]

/-- The 6 `Uint16Array` indices pushed for segment `i` (part_020, lines 110-122):
two triangles over the quad, stored modulo `2 ^ 16`. -/
def segIdxBlock (i : Nat) : List Nat :=
  [(i * 4 + 0) % 65536, (i * 4 + 1) % 65536, (i * 4 + 2) % 65536,
   (i * 4 + 1) % 65536, (i * 4 + 2) % 65536, (i * 4 + 3) % 65536]

/-- `createVertexDataFromAudio` (part_020, lines 25-129), interleaved 5-float layout. -/
def createVertexDataFromAudio (left right : List ℚ) (startSample : Nat)
    (cfg : WoscopeConfig) : WoscopeVertexData :=
  let actualSamples : Int :=
    min (cfg.nSamples : Int) ((left.length : Int) - (startSample : Int))
  let numSegments : Int := actualSamples - 1
  if numSegments ≤ 0 then ⟨[], [], 0⟩
  else
    ⟨rangeFlat (segBlock left right startSample cfg numSegments.toNat) numSegments.toNat,
     rangeFlat segIdxBlock numSegments.toNat,
     numSegments.toNat⟩

end WoscopeVertexUtils

namespace WoscopeVertexUtilsOld

/-- `t1` of segment `i` (part_021, lines 58-70). -/
def segT1 (left right : List ℚ) (startSample : Nat) (cfg : WoscopeConfig)
    (n i : Nat) : ℚ :=
  if cfg.sweep then ((i : ℚ) / ((n : ℚ) - 1)) * cfg.timeScale
  else (if cfg.swap then chGet right (startSample + i) else chGet left (startSample + i))
        * cfg.amplitudeScale

/-- `scaledY1` of segment `i` (part_021, lines 59-65). -/
def segY1 (left right : List ℚ) (startSample : Nat) (cfg : WoscopeConfig) (i : Nat) : ℚ :=
  (if cfg.swap then chGet left (startSample + i) else chGet right (startSample + i))
    * cfg.amplitudeScale

/-- `t2` of segment `i` (part_021, lines 60-71). -/
def segT2 (left right : List ℚ) (startSample : Nat) (cfg : WoscopeConfig)
    (n i : Nat) : ℚ :=
  if cfg.sweep then (((i : ℚ) + 1) / ((n : ℚ) - 1)) * cfg.timeScale
  else (if cfg.swap then chGet right (startSample + i + 1) else chGet left (startSample + i + 1))
        * cfg.amplitudeScale

/-- `scaledY2` of segment `i` (part_021, lines 61-67). -/
def segY2 (left right : List ℚ) (startSample : Nat) (cfg : WoscopeConfig) (i : Nat) : ℚ :=
  (if cfg.swap then chGet left (startSample + i + 1) else chGet right (startSample + i + 1))
    * cfg.amplitudeScale

/-- The 16 floats `[x, y, quadIndex, segmentT] × 4` pushed for segment `i`
(part_021, lines 73-96). -/
def segBlock (left right : List ℚ) (startSample : Nat) (cfg : WoscopeConfig)
    (n i : Nat) : List ℚ :=
  [segT1 left right startSample cfg n i, segY1 left right startSample cfg i, 0, 0,
   segT1 left right startSample cfg n i, segY1 left right startSample cfg i, 1, 0,
   segT2 left right startSample cfg n i, segY2 left right startSample cfg i, 2, 1,
   segT2 left right startSample cfg n i, segY2 left right startSample cfg i, 3, 1]

/-- The 6 `Uint16Array` indices pushed for segment `i` (part_021, lines 103-115). -/
def segIdxBlock (i : Nat) : List Nat :=
  [(i * 4 + 0) % 65536, (i * 4 + 1) % 65536, (i * 4 + 2) % 65536,
   (i * 4 + 1) % 65536, (i * 4 + 2) % 65536, (i * 4 + 3) % 65536]

/-- `createVertexDataFromAudio` (part_021, lines 24-122), older 4-float layout. -/
def createVertexDataFromAudio (left right : List ℚ) (startSample : Nat)
    (cfg : WoscopeConfig) : WoscopeVertexData :=
  let actualSamples : Int :=
    min (cfg.nSamples : Int) ((left.length : Int) - (startSample : Int))
  let numSegments : Int := actualSamples - 1
  if numSegments ≤ 0 then ⟨[], [], 0⟩
  else
    ⟨rangeFlat (segBlock left right startSample cfg numSegments.toNat) numSegments.toNat,
     rangeFlat segIdxBlock numSegments.toNat,
     numSegments.toNat⟩

end WoscopeVertexUtilsOld

namespace Shaders

noncomputable section

/-- GLSL `#define EPS 1E-6` (part_019, line 47). -/
def EPS : ℝ := 1 / 1000000

/-- GLSL `#define SQRT2 1.4142135623730951` (part_019, line 50): the shader's
decimal literal, not the mathematical `√2`. -/
def SQRT2 : ℝ := 1.4142135623730951

/-- GLSL `sign`. -/
def glslSign (x : ℝ) : ℝ := if 0 < x then 1 else if x < 0 then -1 else 0

/-- GLSL `clamp(x, lo, hi) = min(max(x, lo), hi)`. -/
def glslClamp (x lo hi : ℝ) : ℝ := min (max x lo) hi

/-- GLSL `smoothstep(e0, e1, x)`. -/
def smoothstep (e0 e1 x : ℝ) : ℝ :=
  let t := glslClamp ((x - e0) / (e1 - e0)) 0 1
  t * t * (3 - 2 * t)

/-- The fragment shader's polynomial `erf` approximation (part_019, lines 61-66). -/
def glslErf (x : ℝ) : ℝ :=
  let s := glslSign x
  let a := |x|
  let p := 1 + (0.278393 + (0.230389 + (0.000972 + 0.078108 * a) * a) * a) * a
  let q := p * p
  s - s / (q * q)

/-- `uvl.w = floor(aIdx / 4.0 + 0.5)` computed by the vertex stage
(part_019, line 30). -/
def vsUvlW (aIdx : ℝ) : ℝ := ((⌊aIdx / 4 + 0.5⌋ : ℤ) : ℝ)

/-- `uvl.z = length(aEnd - aStart)` computed by the vertex stage
(part_019, lines 32-33). -/
def vsUvlZ (aStart aEnd : ℝ × ℝ) : ℝ :=
  Real.sqrt ((aEnd.1 - aStart.1) ^ 2 + (aEnd.2 - aStart.2) ^ 2)

/-- `vec2 xy` of the fragment stage (part_019, line 72), with
`tang = uvl.x`, `side = uvl.y`. -/
def fsXY (len tang side uSize : ℝ) : ℝ × ℝ :=
  ((len / 2 + uSize) * tang + len / 2, uSize * side)

/-- The degenerate-segment fallback `exp(-|xy|²/(2σ²))/2/sqrt(uSize)` with
`σ = uSize/4` (part_019, lines 75-77).  Defined with no segment-length argument:
no division by the segment length occurs on this branch. -/
def gaussFallbackAlpha (xy : ℝ × ℝ) (uSize : ℝ) : ℝ :=
  Real.exp (-(Real.sqrt (xy.1 ^ 2 + xy.2 ^ 2)) ^ 2 / (2 * (uSize / 4) ^ 2))
    / 2 / Real.sqrt uSize

/-- The generic-segment erf-integrated alpha (part_019, lines 79-80); divides by `len`. -/
def segmentAlpha (len : ℝ) (xy : ℝ × ℝ) (uSize : ℝ) : ℝ :=
  (glslErf ((len - xy.1) / SQRT2 / (uSize / 4)) + glslErf (xy.1 / SQRT2 / (uSize / 4)))
    * Real.exp (-(xy.2 ^ 2) / (2 * (uSize / 4) ^ 2)) / 2 / len * uSize

/-- The fragment stage's branch on `len < EPS` (part_019, lines 76-81). -/
def fsBaseAlpha (len tang side uSize : ℝ) : ℝ :=
  if len < EPS then gaussFallbackAlpha (fsXY len tang side uSize) uSize
  else segmentAlpha len (fsXY len tang side uSize) uSize

/-- `float afterglow = smoothstep(0.0, 0.33, uvl.w / max(1.0, uN))`
(part_019, line 82). -/
def fsAfterglow (w uN : ℝ) : ℝ := smoothstep 0 0.33 (w / max 1 uN)

/-- The fragment's final alpha `alpha *= afterglow * uIntensity`
(part_019, lines 76-83). -/
def fsAlpha (len tang side w uSize uIntensity uN : ℝ) : ℝ :=
  fsBaseAlpha len tang side uSize * (fsAfterglow w uN * uIntensity)

/-- `computeNormalizedIntensity` of the renderer (part_010, lines 88-94). -/
def computeNormalizedIntensity (nSamples drawIndices : Nat) : ℝ :=
  let ns := if nSamples = 0 then 1024 else nSamples
  let expectedIndices : Nat := max 1 ((ns - 1) * 6)
  let scale := Real.sqrt ((expectedIndices : ℝ) / ((max 1 drawIndices : Nat) : ℝ))
  max 0.5 (min 2.0 scale)

/-- The spec's normalizer formula,
`clamp(sqrt(expectedIndexCount / actualIndexCount), 0.5, 2.0)` with
`expectedIndexCount = (configured nSamples - 1) × 6`; stated from the spec's
words for refinement comparison with `computeNormalizedIntensity`. -/
def specNormalizedIntensity (nSamples drawIndices : Nat) : ℝ :=
  max 0.5 (min 2.0 (Real.sqrt ((((nSamples : ℝ) - 1) * 6) / (drawIndices : ℝ))))

end

end Shaders

namespace RingBuffer

lemma appendStep_fields (cap : Nat) (s : ℚ) (p : Channel × Nat) :
    ((appendStep cap s p).1.writeIndex = p.1.writeIndex + 1) ∧
    ((appendStep cap s p).1.readIndex =
      if p.1.writeIndex + 1 - p.1.readIndex > cap then p.1.writeIndex + 1 - cap
      else p.1.readIndex) ∧
    ((appendStep cap s p).2 =
      if p.1.writeIndex + 1 - p.1.readIndex > cap then p.2 + 1 else p.2) ∧
    ((appendStep cap s p).1.capacity = p.1.capacity) := by
  unfold appendStep
  dsimp only
  split <;> simp

/-- Joint behaviour of the append loop: final `droppedSamples`, final `writeIndex`,
and preservation of well-formedness relative to the loop's `cap`. -/
lemma appendFold_spec (cap : Nat) :
    ∀ (l : List ℚ) (p : Channel × Nat),
      p.1.readIndex ≤ p.1.writeIndex →
      p.1.writeIndex - p.1.readIndex ≤ cap →
      (l.foldl (fun acc s => appendStep cap s acc) p).2
          = p.2 + ((p.1.writeIndex - p.1.readIndex) + l.length - cap) ∧
      (l.foldl (fun acc s => appendStep cap s acc) p).1.writeIndex
          = p.1.writeIndex + l.length ∧
      (l.foldl (fun acc s => appendStep cap s acc) p).1.readIndex
          ≤ (l.foldl (fun acc s => appendStep cap s acc) p).1.writeIndex ∧
      (l.foldl (fun acc s => appendStep cap s acc) p).1.writeIndex
          - (l.foldl (fun acc s => appendStep cap s acc) p).1.readIndex ≤ cap ∧
      (l.foldl (fun acc s => appendStep cap s acc) p).1.capacity = p.1.capacity := by
  intro l
  induction l with
  | nil =>
      intro p h1 h2
      refine ⟨by simp; omega, by simp, h1, h2, rfl⟩
  | cons s rest ih =>
      intro p h1 h2
      obtain ⟨hw, hr, hd2, hcap⟩ := appendStep_fields cap s p
      have h1' : (appendStep cap s p).1.readIndex ≤ (appendStep cap s p).1.writeIndex := by
        rw [hw, hr]; split <;> omega
      have h2' : (appendStep cap s p).1.writeIndex - (appendStep cap s p).1.readIndex ≤ cap := by
        rw [hw, hr]; split <;> omega
      obtain ⟨ihd, ihw, ihr, ihspan, ihcap⟩ := ih (appendStep cap s p) h1' h2'
      simp only [List.foldl_cons]
      refine ⟨?_, ?_, ihr, ihspan, by rw [ihcap, hcap]⟩
      · rw [ihd, hd2, hw, hr]
        split <;> simp only [List.length_cons] <;> omega
      · rw [ihw, hw]
        simp only [List.length_cons]
        omega

lemma ensureBuffer_noResize (defaultCapacity : Nat) (ch : Channel) (minCapacity : Nat)
    (hb : ch.buffer.isSome) (hc : ¬ ch.capacity < minCapacity) :
    ensureBuffer defaultCapacity ch minCapacity = ch := by
  unfold ensureBuffer
  match hE : ch.buffer with
  | none => rw [hE] at hb; simp at hb
  | some f => simp [hc]

lemma ensureBuffer_WF (defaultCapacity : Nat) (ch : Channel) (minCapacity : Nat)
    (h : WF ch) : WF (ensureBuffer defaultCapacity ch minCapacity) := by
  unfold ensureBuffer
  match hE : ch.buffer with
  | none => exact ⟨Nat.le_refl 0, by simp⟩
  | some f =>
      by_cases hc : ch.capacity < minCapacity
      · simp only [hc, if_true]
        refine ⟨Nat.zero_le _, ?_⟩
        simp
      · simpa [hc] using h


lemma appendSamples_noResize (defaultCapacity : Nat) (ch : Channel) (dropped : Nat)
    (samples : List ℚ) (hb : ch.buffer.isSome) (hC : 1 ≤ ch.capacity)
    (hlen : samples.length ≠ 0) :
    appendSamples defaultCapacity ch dropped samples
      = samples.foldl (fun acc s => appendStep ch.capacity s acc) (ch, dropped) := by
  unfold appendSamples
  rw [if_neg hlen]
  have hcap : (if ch.capacity = 0 then samples.length else ch.capacity) = ch.capacity := by
    rw [if_neg (by omega)]
  rw [hcap, ensureBuffer_noResize defaultCapacity ch ch.capacity hb (by omega)]

/-- C1. With a channel whose ring storage is already allocated at capacity `C ≥ 1`
and holding no unread data (`writeIndex = readIndex`), a single `appendSamples`
delivering more than `C` samples increments the global `droppedSamples` counter by
exactly `samples.length - C`.  The operation is a total function: it neither blocks
nor raises an error. -/
theorem appendSamples_overflow_drops (defaultCapacity : Nat) (ch : Channel)
    (dropped : Nat) (samples : List ℚ)
    (hb : ch.buffer.isSome) (hC : 1 ≤ ch.capacity)
    (hempty : ch.writeIndex = ch.readIndex)
    (hover : ch.capacity < samples.length) :
    (appendSamples defaultCapacity ch dropped samples).2
      = dropped + (samples.length - ch.capacity) := by
  rw [appendSamples_noResize defaultCapacity ch dropped samples hb hC (by omega)]
  have h := (appendFold_spec ch.capacity samples (ch, dropped)
    (by simp [hempty]) (by simp [hempty])).1
  rw [h]
  simp [hempty]

set_option maxRecDepth 4096 in
/-- C1 witness: capacity `1024`, one write of `2000` samples, starting empty:
exactly `976` samples are reported dropped. -/
theorem appendSamples_overflow_drops_witness :
    (appendSamples 8192
        { buffer := some (fun _ => 0), capacity := 1024, writeIndex := 0,
          readIndex := 0, gain := 1, lastSample := 0 }
        0 (List.replicate 2000 (37 : ℚ))).2 = 976 := by
  have h := appendSamples_overflow_drops 8192
    { buffer := some (fun _ => 0), capacity := 1024, writeIndex := 0,
      readIndex := 0, gain := 1, lastSample := 0 }
    0 (List.replicate 2000 (37 : ℚ)) rfl (by norm_num) rfl
    (by simp only [List.length_replicate]; norm_num)
  refine h.trans ?_
  rw [List.length_replicate]
  norm_num

/-- C2. The ring-buffer invariant `writeIndex - readIndex ≤ capacity` (together
with `readIndex ≤ writeIndex`) is preserved by every operation: `appendSamples`
(any batch), the consumer read inside `process`, and an `ensureBuffer` resize.
Moreover a write step that would violate the invariant forces `readIndex` forward
to `writeIndex - capacity` and increments the dropped-sample counter; every
operation is a total function (never a fault). -/
theorem ringBuffer_invariant (ch : Channel) (hWF : WF ch) :
    (∀ defaultCapacity dropped samples,
        WF (appendSamples defaultCapacity ch dropped samples).1) ∧
    (∀ globalGain frameCount underruns,
        WF (processChannel globalGain frameCount ch underruns).1) ∧
    (∀ defaultCapacity minCapacity,
        WF (ensureBuffer defaultCapacity ch minCapacity)) ∧
    (∀ cap s dropped, ch.writeIndex + 1 - ch.readIndex > cap →
        (appendStep cap s (ch, dropped)).1.readIndex = ch.writeIndex + 1 - cap ∧
        (appendStep cap s (ch, dropped)).2 = dropped + 1) := by
  refine ⟨?_, ?_, ?_, ?_⟩
  · intro defaultCapacity dropped samples
    unfold appendSamples
    by_cases h0 : samples.length = 0
    · simpa [h0] using hWF
    · rw [if_neg h0]
      have hWF1 := ensureBuffer_WF defaultCapacity ch
        (if ch.capacity = 0 then samples.length else ch.capacity) hWF
      set ch1 := ensureBuffer defaultCapacity ch
        (if ch.capacity = 0 then samples.length else ch.capacity)
      obtain ⟨-, -, hr, hspan, hcap⟩ := appendFold_spec ch1.capacity samples
        (ch1, dropped) hWF1.1 hWF1.2
      exact ⟨hr, by rw [hcap]; exact hspan⟩
  · intro globalGain frameCount underruns
    unfold processChannel
    match hE : ch.buffer with
    | none => exact hWF
    | some b =>
        dsimp only
        obtain ⟨h1, h2⟩ := hWF
        constructor
        · dsimp only
          omega
        · dsimp only
          omega
  · intro defaultCapacity minCapacity
    exact ensureBuffer_WF defaultCapacity ch minCapacity hWF
  · intro cap s dropped hforce
    obtain ⟨hw, hr, hd2, hcap⟩ := appendStep_fields cap s (ch, dropped)
    exact ⟨by rw [hr]; exact if_pos hforce, by rw [hd2]; exact if_pos hforce⟩

/-- C2 witness: the invariant-preservation theorem applied to a concrete
well-formed channel, including the forcing behaviour of a single overflowing
write step. -/
theorem ringBuffer_invariant_witness :
    (WF (appendSamples 8192
          { buffer := some (fun _ => 0), capacity := 2, writeIndex := 5,
            readIndex := 5, gain := 1, lastSample := 0 } 0 [1, 2, 3]).1) ∧
    (WF (processChannel 1 128
          { buffer := some (fun _ => 0), capacity := 2, writeIndex := 5,
            readIndex := 5, gain := 1, lastSample := 0 } 0).1) ∧
    (WF (ensureBuffer 8192
          { buffer := some (fun _ => 0), capacity := 2, writeIndex := 5,
            readIndex := 5, gain := 1, lastSample := 0 } 4)) ∧
    ((appendStep 0 7
        ({ buffer := some (fun _ => 0), capacity := 2, writeIndex := 5,
           readIndex := 5, gain := 1, lastSample := 0 }, 0)).1.readIndex = 6 ∧
     (appendStep 0 7
        ({ buffer := some (fun _ => 0), capacity := 2, writeIndex := 5,
           readIndex := 5, gain := 1, lastSample := 0 }, 0)).2 = 1) := by
  have h := ringBuffer_invariant
    { buffer := some (fun _ => 0), capacity := 2, writeIndex := 5,
      readIndex := 5, gain := 1, lastSample := 0 }
    ⟨by norm_num, by norm_num⟩
  exact ⟨h.1 8192 0 [1, 2, 3], h.2.1 1 128 0, h.2.2.1 8192 4,
    h.2.2.2 0 7 0 (by norm_num)⟩

lemma scanBatch_some_acc (data : String → Option (List ℚ)) :
    ∀ (l : List String) (b : Nat) (res : Option Nat),
      scanBatch data (some b) l = some res → res = b := by
  intro l
  induction l with
  | nil => intro b res h; simpa [scanBatch] using h.symm
  | cons n rest ih =>
      intro b res h
      unfold scanBatch at h
      match hE : data n with
      | none => rw [hE] at h; exact ih b res h
      | some arr =>
          rw [hE] at h
          try dsimp only at h
          by_cases h0 : arr.length = 0
          · rw [if_pos h0] at h; exact ih b res h
          · rw [if_neg h0] at h
            try dsimp only at h
            by_cases heq : arr.length = b
            · rw [if_pos heq] at h; exact ih b res h
            · rw [if_neg heq] at h; exact absurd h (by simp)

lemma scanBatch_sound (data : String → Option (List ℚ)) :
    ∀ (l : List String) (acc : Option Nat) (res : Option Nat),
      scanBatch data acc l = some res →
      ∀ n ∈ l, ∀ arr, data n = some arr → arr.length ≠ 0 → res = some arr.length := by
  intro l
  induction l with
  | nil => intro acc res _ n hn; exact absurd hn (List.not_mem_nil n)
  | cons m rest ih =>
      intro acc res h n hn arr harr h0
      unfold scanBatch at h
      rcases List.mem_cons.mp hn with hn1 | hn2
      · subst hn1
        rw [harr] at h
        try dsimp only at h
        rw [if_neg h0] at h
        match acc with
        | none =>
            try dsimp only at h
            match hres : res with
            | none =>
                exfalso
                have := scanBatch_some_acc data rest arr.length none h
                simp at this
            | some v =>
                have hv := scanBatch_some_acc data rest arr.length (some v) h
                simpa using hv
        | some b =>
            try dsimp only at h
            by_cases heq : arr.length = b
            · rw [if_pos heq] at h
              have := scanBatch_some_acc data rest b res h
              rw [this, heq]
            · rw [if_neg heq] at h; exact absurd h (by simp)
      · match hE : data m with
        | none => rw [hE] at h; exact ih acc res h n hn2 arr harr h0
        | some arr2 =>
            rw [hE] at h
            try dsimp only at h
            by_cases h02 : arr2.length = 0
            · rw [if_pos h02] at h; exact ih acc res h n hn2 arr harr h0
            · rw [if_neg h02] at h
              match acc with
              | none =>
                  try dsimp only at h
                  exact ih (some arr2.length) res h n hn2 arr harr h0
              | some b =>
                  try dsimp only at h
                  by_cases heq : arr2.length = b
                  · rw [if_pos heq] at h; exact ih (some b) res h n hn2 arr harr h0
                  · rw [if_neg heq] at h; exact absurd h (by simp)

/-- C10. If the `appendVertexData` payload contains two channels (among the six
channel names) whose sample arrays have differing non-zero lengths, `handleAppend`
aborts before touching any state: no channel buffer, `writeIndex`, `readIndex`,
nor the `droppedSamples` counter is modified. -/
theorem handleAppend_mismatch_atomic (p : Proc) (data : String → Option (List ℚ))
    (n1 n2 : String) (h1 : n1 ∈ channelNames) (h2 : n2 ∈ channelNames)
    (arr1 arr2 : List ℚ) (e1 : data n1 = some arr1) (e2 : data n2 = some arr2)
    (l1 : arr1.length ≠ 0) (l2 : arr2.length ≠ 0)
    (hne : arr1.length ≠ arr2.length) :
    handleAppend p data = p := by
  have habort : scanBatch data none channelNames = none := by
    match hres : scanBatch data none channelNames with
    | none => rfl
    | some res =>
        exfalso
        have k1 := scanBatch_sound data channelNames none res hres n1 h1 arr1 e1 l1
        have k2 := scanBatch_sound data channelNames none res hres n2 h2 arr2 e2 l2
        rw [k1] at k2
        exact hne (Option.some_injective _ k2)
  unfold handleAppend
  rw [habort]

/-- C10 witness: a payload with lengths 1 and 2 on two channels leaves a
concrete processor state untouched. -/
theorem handleAppend_mismatch_atomic_witness :
    handleAppend
      { channels := fun _ =>
          { buffer := none, capacity := 0, writeIndex := 0, readIndex := 0,
            gain := 1, lastSample := 0 },
        defaultCapacity := 8192, droppedSamples := 0 }
      (fun n => if n = "screenX" then some [1] else
                if n = "screenY" then some [2, 3] else none)
      = { channels := fun _ =>
            { buffer := none, capacity := 0, writeIndex := 0, readIndex := 0,
              gain := 1, lastSample := 0 },
          defaultCapacity := 8192, droppedSamples := 0 } := by
  apply handleAppend_mismatch_atomic _ _ "screenX" "screenY"
    (by simp [channelNames]) (by simp [channelNames]) [1] [2, 3]
    (by simp) (by simp) (by simp) (by simp) (by simp)

end RingBuffer

namespace SabEngine

lemma slice_length (f : Nat → ℚ) : ∀ (n a : Nat), (slice f a n).length = n := by
  intro n
  induction n with
  | zero => intro a; rfl
  | succ m ih => intro a; simp [slice, ih]

lemma slice_getD (f : Nat → ℚ) :
    ∀ (n a j : Nat), j < n → (slice f a n).getD j 0 = f (a + j) := by
  intro n
  induction n with
  | zero => intro a j h; omega
  | succ m ih =>
      intro a j h
      match j with
      | 0 => simp [slice]
      | j' + 1 =>
          have := ih (a + 1) j' (by omega)
          simp only [slice, List.getD_cons_succ]
          rw [this]
          congr 1
          omega

lemma copyOut_spec (f : Nat → ℚ) (base startIdx toRead cap : Nat)
    (h1 : startIdx < cap) (h2 : toRead ≤ cap) :
    (if startIdx + toRead ≤ cap then slice f (base + startIdx) toRead
      else slice f (base + startIdx) (cap - startIdx)
        ++ slice f base (toRead - (cap - startIdx))).length = toRead ∧
    ∀ j < toRead,
      (if startIdx + toRead ≤ cap then slice f (base + startIdx) toRead
        else slice f (base + startIdx) (cap - startIdx)
          ++ slice f base (toRead - (cap - startIdx))).getD j 0
        = f (base + (startIdx + j) % cap) := by
  by_cases hsplit : startIdx + toRead ≤ cap
  · rw [if_pos hsplit]
    refine ⟨slice_length f toRead (base + startIdx), ?_⟩
    intro j hj
    rw [slice_getD f toRead (base + startIdx) j hj]
    have hlt : startIdx + j < cap := by omega
    rw [Nat.mod_eq_of_lt hlt]
    congr 1
    omega
  · rw [if_neg hsplit]
    constructor
    · rw [List.length_append, slice_length, slice_length]
      omega
    · intro j hj
      by_cases hfirst : j < cap - startIdx
      · rw [List.getD_append _ _ _ _ (by rw [slice_length]; exact hfirst)]
        rw [slice_getD f (cap - startIdx) (base + startIdx) j hfirst]
        have hlt : startIdx + j < cap := by omega
        rw [Nat.mod_eq_of_lt hlt]
        congr 1
        omega
      · rw [List.getD_append_right _ _ _ _ (by rw [slice_length]; omega)]
        rw [slice_length]
        rw [slice_getD f (toRead - (cap - startIdx)) base (j - (cap - startIdx)) (by omega)]
        have hge : cap ≤ startIdx + j := by omega
        have hlt2 : startIdx + j - cap < cap := by omega
        rw [Nat.mod_eq_sub_mod hge, Nat.mod_eq_of_lt hlt2]
        congr 1
        omega

/-- C3. For an in-range `channelIndex` and any `endSample`, the peek
`getSamplesForChannel` (a) leaves the shared state — in particular both atomic
control indices — unchanged, (b) returns `0` when nothing has been written,
(c) returns `min(out.length, clampedEnd + 1)` samples where
`clampedEnd = min(endSample, write - 1)`, and (d) fills the output with the ring
cells of the window of that many samples ending at `clampedEnd`.
(`capacity` is a power of two, as allocated; `out` fits within one channel's ring.) -/
theorem getSamplesForChannel_spec (st : Sab) (channelIndex : Nat) (endSample : Int)
    (outLen : Nat) (k : Nat) (hcap : st.capacity = 2 ^ k)
    (hch : channelIndex < st.channels) (hout : outLen ≤ st.capacity) :
    (getSamplesForChannel st channelIndex endSample outLen).2.2 = st ∧
    (st.write = 0 → (getSamplesForChannel st channelIndex endSample outLen).1 = 0) ∧
    ((getSamplesForChannel st channelIndex endSample outLen).1
        = (min (outLen : Int) (min endSample ((st.write : Int) - 1) + 1)).toNat) ∧
    ((getSamplesForChannel st channelIndex endSample outLen).2.1.length
        = (getSamplesForChannel st channelIndex endSample outLen).1) ∧
    (∀ j < (getSamplesForChannel st channelIndex endSample outLen).1,
      (getSamplesForChannel st channelIndex endSample outLen).2.1.getD j 0
        = st.samples (channelIndex * st.capacity +
            (((min endSample ((st.write : Int) - 1) + 1
                - min (outLen : Int) (min endSample ((st.write : Int) - 1) + 1)).toNat
              + j) % st.capacity))) := by
  have hcap1 : 1 ≤ st.capacity := by
    rw [hcap]; exact Nat.one_le_two_pow
  unfold getSamplesForChannel
  rw [if_pos hch]
  by_cases hw : (st.write : Int) - 1 < 0
  · rw [if_pos hw]
    refine ⟨rfl, fun _ => rfl, by omega, rfl, ?_⟩
    intro j hj
    exact absurd hj (by omega)
  · rw [if_neg hw]
    dsimp only
    by_cases ht : min (outLen : Int) (min endSample ((st.write : Int) - 1) + 1) ≤ 0
    · rw [if_pos ht]
      refine ⟨rfl, fun _ => rfl, by omega, rfl, ?_⟩
      intro j hj
      exact absurd hj (by omega)
    · rw [if_neg ht]
      dsimp only
      have hmask : ((min endSample ((st.write : Int) - 1) + 1
          - min (outLen : Int) (min endSample ((st.write : Int) - 1) + 1)).toNat
            &&& (st.capacity - 1))
          = (min endSample ((st.write : Int) - 1) + 1
          - min (outLen : Int) (min endSample ((st.write : Int) - 1) + 1)).toNat
            % st.capacity := by
        rw [hcap]
        exact Nat.and_pow_two_sub_one_eq_mod _ k
      rw [hmask]
      have hstartIdx : (min endSample ((st.write : Int) - 1) + 1
          - min (outLen : Int) (min endSample ((st.write : Int) - 1) + 1)).toNat
            % st.capacity < st.capacity := Nat.mod_lt _ (by omega)
      have htoRead : (min (outLen : Int) (min endSample ((st.write : Int) - 1) + 1)).toNat
          ≤ st.capacity := by omega
      obtain ⟨hlen, hget⟩ := copyOut_spec st.samples (channelIndex * st.capacity)
        ((min endSample ((st.write : Int) - 1) + 1
          - min (outLen : Int) (min endSample ((st.write : Int) - 1) + 1)).toNat
            % st.capacity)
        ((min (outLen : Int) (min endSample ((st.write : Int) - 1) + 1)).toNat)
        st.capacity hstartIdx htoRead
      refine ⟨rfl, fun h0 => absurd h0 (by omega), rfl, hlen, ?_⟩
      intro j hj
      rw [hget j hj]
      congr 1
      rw [Nat.add_mod, Nat.mod_mod_of_dvd, ← Nat.add_mod]
      exact dvd_refl _

/-- C3 witness: a concrete peek (capacity 4, 2 channels, 6 samples written)
returns 3 samples and leaves the control state untouched. -/
theorem getSamplesForChannel_spec_witness :
    (getSamplesForChannel ⟨4, 2, fun i => (i : ℚ), 6, 3⟩ 1 5 3).2.2
        = ⟨4, 2, fun i => (i : ℚ), 6, 3⟩ ∧
    (getSamplesForChannel ⟨4, 2, fun i => (i : ℚ), 6, 3⟩ 1 5 3).1 = 3 := by
  have h := getSamplesForChannel_spec ⟨4, 2, fun i => (i : ℚ), 6, 3⟩ 1 5 3 2
    rfl (by norm_num) (by norm_num)
  exact ⟨h.1, h.2.2.1.trans (by decide)⟩

end SabEngine

lemma rangeFlat_length {α : Type} (f : Nat → List α) (m : Nat)
    (hf : ∀ i, (f i).length = m) : ∀ n, (rangeFlat f n).length = n * m := by
  intro n
  induction n with
  | zero => simp [rangeFlat]
  | succ k ih =>
      simp only [rangeFlat, List.length_append, ih, hf]
      ring

lemma rangeFlat_getD {α : Type} (f : Nat → List α) (m : Nat)
    (hf : ∀ i, (f i).length = m) (d : α) :
    ∀ (n i j : Nat), i < n → j < m →
      (rangeFlat f n).getD (i * m + j) d = (f i).getD j d := by
  intro n
  induction n with
  | zero => intro i j hi _; omega
  | succ k ih =>
      intro i j hi hj
      by_cases hik : i < k
      · unfold rangeFlat
        rw [List.getD_append _ _ _ _ (by rw [rangeFlat_length f m hf k]; nlinarith)]
        exact ih i j hik hj
      · have hik2 : i = k := by omega
        subst hik2
        unfold rangeFlat
        rw [List.getD_append_right _ _ _ _ (by rw [rangeFlat_length f m hf i]; omega)]
        rw [rangeFlat_length f m hf i]
        congr 1
        omega

namespace WoscopeVertexUtils

lemma segBlock_length (left right : List ℚ) (startSample : Nat) (cfg : WoscopeConfig)
    (n i : Nat) : (segBlock left right startSample cfg n i).length = 20 := rfl

lemma segIdxBlock_length (i : Nat) : (segIdxBlock i).length = 6 := rfl

lemma createVertexDataFromAudio_pos (left right : List ℚ) (startSample : Nat)
    (cfg : WoscopeConfig)
    (hL : 2 ≤ min (cfg.nSamples : Int) ((left.length : Int) - (startSample : Int))) :
    createVertexDataFromAudio left right startSample cfg =
      ⟨rangeFlat
          (segBlock left right startSample cfg
            (min (cfg.nSamples : Int) ((left.length : Int) - (startSample : Int)) - 1).toNat)
          (min (cfg.nSamples : Int) ((left.length : Int) - (startSample : Int)) - 1).toNat,
       rangeFlat segIdxBlock
          (min (cfg.nSamples : Int) ((left.length : Int) - (startSample : Int)) - 1).toNat,
       (min (cfg.nSamples : Int) ((left.length : Int) - (startSample : Int)) - 1).toNat⟩ := by
  unfold createVertexDataFromAudio
  rw [if_neg (by omega)]

lemma createVertexDataFromAudio_neg (left right : List ℚ) (startSample : Nat)
    (cfg : WoscopeConfig)
    (hL : min (cfg.nSamples : Int) ((left.length : Int) - (startSample : Int)) < 2) :
    createVertexDataFromAudio left right startSample cfg = ⟨[], [], 0⟩ := by
  unfold createVertexDataFromAudio
  rw [if_pos (by omega)]

end WoscopeVertexUtils

namespace WoscopeVertexUtilsOld

lemma segBlockOld_length (left right : List ℚ) (startSample : Nat) (cfg : WoscopeConfig)
    (n i : Nat) : (segBlock left right startSample cfg n i).length = 16 := rfl

lemma createVertexDataFromAudioOld_pos (left right : List ℚ) (startSample : Nat)
    (cfg : WoscopeConfig)
    (hL : 2 ≤ min (cfg.nSamples : Int) ((left.length : Int) - (startSample : Int))) :
    createVertexDataFromAudio left right startSample cfg =
      ⟨rangeFlat
          (segBlock left right startSample cfg
            (min (cfg.nSamples : Int) ((left.length : Int) - (startSample : Int)) - 1).toNat)
          (min (cfg.nSamples : Int) ((left.length : Int) - (startSample : Int)) - 1).toNat,
       rangeFlat segIdxBlock
          (min (cfg.nSamples : Int) ((left.length : Int) - (startSample : Int)) - 1).toNat,
       (min (cfg.nSamples : Int) ((left.length : Int) - (startSample : Int)) - 1).toNat⟩ := by
  unfold createVertexDataFromAudio
  rw [if_neg (by omega)]

lemma createVertexDataFromAudioOld_neg (left right : List ℚ) (startSample : Nat)
    (cfg : WoscopeConfig)
    (hL : min (cfg.nSamples : Int) ((left.length : Int) - (startSample : Int)) < 2) :
    createVertexDataFromAudio left right startSample cfg = ⟨[], [], 0⟩ := by
  unfold createVertexDataFromAudio
  rw [if_pos (by omega)]

end WoscopeVertexUtilsOld

/-- C4. For every pair of channels, start offset and config, with clamped window
length `L = min(nSamples, leftChannel.length - startSample)`: when `L ≥ 2` both
generator versions return `numSegments = L - 1`, an index array of length
`numSegments × 6`, and a vertex array of length `numSegments × 4 × 5` (interleaved
layout) resp. `numSegments × 4 × 4` (older layout); when `L < 2` both return
`numSegments = 0` with empty vertex and index arrays.  Both are total functions
(never an error). -/
theorem createVertexDataFromAudio_sizes (left right : List ℚ) (startSample : Nat)
    (cfg : WoscopeConfig) :
    (2 ≤ min (cfg.nSamples : Int) ((left.length : Int) - (startSample : Int)) →
      ((WoscopeVertexUtils.createVertexDataFromAudio left right startSample cfg).numSegments : Int)
          = min (cfg.nSamples : Int) ((left.length : Int) - (startSample : Int)) - 1 ∧
      (WoscopeVertexUtils.createVertexDataFromAudio left right startSample cfg).indices.length
          = (WoscopeVertexUtils.createVertexDataFromAudio left right startSample cfg).numSegments * 6 ∧
      (WoscopeVertexUtils.createVertexDataFromAudio left right startSample cfg).vertices.length
          = (WoscopeVertexUtils.createVertexDataFromAudio left right startSample cfg).numSegments * 4 * 5 ∧
      ((WoscopeVertexUtilsOld.createVertexDataFromAudio left right startSample cfg).numSegments : Int)
          = min (cfg.nSamples : Int) ((left.length : Int) - (startSample : Int)) - 1 ∧
      (WoscopeVertexUtilsOld.createVertexDataFromAudio left right startSample cfg).indices.length
          = (WoscopeVertexUtilsOld.createVertexDataFromAudio left right startSample cfg).numSegments * 6 ∧
      (WoscopeVertexUtilsOld.createVertexDataFromAudio left right startSample cfg).vertices.length
          = (WoscopeVertexUtilsOld.createVertexDataFromAudio left right startSample cfg).numSegments * 4 * 4) ∧
    (min (cfg.nSamples : Int) ((left.length : Int) - (startSample : Int)) < 2 →
      (WoscopeVertexUtils.createVertexDataFromAudio left right startSample cfg).numSegments = 0 ∧
      (WoscopeVertexUtils.createVertexDataFromAudio left right startSample cfg).vertices = [] ∧
      (WoscopeVertexUtils.createVertexDataFromAudio left right startSample cfg).indices = [] ∧
      (WoscopeVertexUtilsOld.createVertexDataFromAudio left right startSample cfg).numSegments = 0 ∧
      (WoscopeVertexUtilsOld.createVertexDataFromAudio left right startSample cfg).vertices = [] ∧
      (WoscopeVertexUtilsOld.createVertexDataFromAudio left right startSample cfg).indices = []) := by
  constructor
  · intro hL
    rw [WoscopeVertexUtils.createVertexDataFromAudio_pos left right startSample cfg hL,
        WoscopeVertexUtilsOld.createVertexDataFromAudioOld_pos left right startSample cfg hL]
    dsimp only
    refine ⟨by omega, ?_, ?_, by omega, ?_, ?_⟩
    · rw [rangeFlat_length WoscopeVertexUtils.segIdxBlock 6 (fun _ => rfl)]
    · rw [rangeFlat_length _ 20
        (fun i => WoscopeVertexUtils.segBlock_length left right startSample cfg _ i)]
      omega
    · rw [rangeFlat_length WoscopeVertexUtilsOld.segIdxBlock 6 (fun _ => rfl)]
    · rw [rangeFlat_length _ 16
        (fun i => WoscopeVertexUtilsOld.segBlockOld_length left right startSample cfg _ i)]
      omega
  · intro hL
    rw [WoscopeVertexUtils.createVertexDataFromAudio_neg left right startSample cfg hL,
        WoscopeVertexUtilsOld.createVertexDataFromAudioOld_neg left right startSample cfg hL]
    exact ⟨rfl, rfl, rfl, rfl, rfl, rfl⟩

/-- C4 witness: a 3-sample window gives 12 indices for 2 segments, and a
1-sample window gives the empty geometry; one concrete instance of each regime. -/
theorem createVertexDataFromAudio_sizes_witness :
    ((WoscopeVertexUtils.createVertexDataFromAudio [1, 2, 3] [4, 5, 6] 0
        ⟨3, 1, 1, false, false⟩).indices.length
      = (WoscopeVertexUtils.createVertexDataFromAudio [1, 2, 3] [4, 5, 6] 0
        ⟨3, 1, 1, false, false⟩).numSegments * 6) ∧
    ((WoscopeVertexUtilsOld.createVertexDataFromAudio [1] [1] 0
        ⟨3, 1, 1, false, false⟩).numSegments = 0) := by
  refine ⟨((createVertexDataFromAudio_sizes [1, 2, 3] [4, 5, 6] 0
      ⟨3, 1, 1, false, false⟩).1 ?_).2.1,
    ((createVertexDataFromAudio_sizes [1] [1] 0
      ⟨3, 1, 1, false, false⟩).2 ?_).2.2.2.1⟩
  · simp
  · simp

/-- C5 counterexample: the index buffer is a `Uint16Array`, so for segment
`i = 16384` the emitted first index is `(4·16384) mod 2^16 = 0`, not `4·16384`
as the claim states for every generated segment. -/
theorem woscope_index_wrap_counterexample :
    (WoscopeVertexUtils.createVertexDataFromAudio (List.replicate 16386 (0 : ℚ))
        (List.replicate 16386 (0 : ℚ)) 0
        ⟨16386, 1, 1, false, false⟩).indices.getD (16384 * 6 + 0) 0
      ≠ 16384 * 4 + 0 := by
  rw [WoscopeVertexUtils.createVertexDataFromAudio_pos _ _ _ _
    (by rw [List.length_replicate]; decide)]
  dsimp only
  have hn : ((min ((16386 : Nat) : Int)
      (((List.replicate 16386 (0 : ℚ)).length : Int) - ((0 : Nat) : Int)) - 1)).toNat
      = 16385 := by
    rw [List.length_replicate]
    decide
  rw [hn]
  rw [rangeFlat_getD WoscopeVertexUtils.segIdxBlock 6 (fun _ => rfl) 0 16385 16384 0
    (by norm_num) (by norm_num)]
  simp [WoscopeVertexUtils.segIdxBlock]

/-- C5 (amended). For every generated segment `i`, the four emitted vertices
`4i..4i+3` carry identical `(start, end)` endpoint pairs, differing only in the
composite index `aIdx = i×4 + corner`, and the six emitted indices are the two
triangles `(4i, 4i+1, 4i+2), (4i+1, 4i+2, 4i+3)` — each index value reduced
modulo `2^16` by the `Uint16Array` storage (so exact whenever `4i+3 < 65536`). -/
theorem createVertexDataFromAudio_quads (left right : List ℚ) (startSample : Nat)
    (cfg : WoscopeConfig) (i : Nat)
    (hi : i < (WoscopeVertexUtils.createVertexDataFromAudio left right startSample
        cfg).numSegments) :
    (∀ c, c < 4 → ∀ o, o < 4 →
      (WoscopeVertexUtils.createVertexDataFromAudio left right startSample
          cfg).vertices.getD ((i * 4 + c) * 5 + o) 0
        = (WoscopeVertexUtils.createVertexDataFromAudio left right startSample
          cfg).vertices.getD (i * 4 * 5 + o) 0) ∧
    (∀ c, c < 4 →
      (WoscopeVertexUtils.createVertexDataFromAudio left right startSample
          cfg).vertices.getD ((i * 4 + c) * 5 + 4) 0 = ((i * 4 + c : Nat) : ℚ)) ∧
    (∀ j, j < 6 →
      (WoscopeVertexUtils.createVertexDataFromAudio left right startSample
          cfg).indices.getD (i * 6 + j) 0
        = [i * 4, i * 4 + 1, i * 4 + 2, i * 4 + 1, i * 4 + 2, i * 4 + 3].getD j 0 % 65536) := by
  by_cases hL : 2 ≤ min (cfg.nSamples : Int) ((left.length : Int) - (startSample : Int))
  swap
  · exfalso
    rw [WoscopeVertexUtils.createVertexDataFromAudio_neg left right startSample cfg
      (by omega)] at hi
    exact absurd hi (by simp)
  rw [WoscopeVertexUtils.createVertexDataFromAudio_pos left right startSample cfg hL] at hi ⊢
  dsimp only at hi ⊢
  refine ⟨?_, ?_, ?_⟩
  · intro c hc o ho
    have h1 : (i * 4 + c) * 5 + o = i * 20 + (c * 5 + o) := by ring
    have h2 : i * 4 * 5 + o = i * 20 + o := by ring
    rw [h1, h2]
    rw [rangeFlat_getD _ 20 (fun j => WoscopeVertexUtils.segBlock_length left right
      startSample cfg _ j) 0 _ i (c * 5 + o) hi (by omega)]
    rw [rangeFlat_getD _ 20 (fun j => WoscopeVertexUtils.segBlock_length left right
      startSample cfg _ j) 0 _ i o hi (by omega)]
    interval_cases c <;> interval_cases o <;> rfl
  · intro c hc
    have h1 : (i * 4 + c) * 5 + 4 = i * 20 + (c * 5 + 4) := by ring
    rw [h1]
    rw [rangeFlat_getD _ 20 (fun j => WoscopeVertexUtils.segBlock_length left right
      startSample cfg _ j) 0 _ i (c * 5 + 4) hi (by omega)]
    interval_cases c <;> rfl
  · intro j hj
    rw [rangeFlat_getD WoscopeVertexUtils.segIdxBlock 6 (fun _ => rfl) 0 _ i j hi hj]
    interval_cases j <;> simp [WoscopeVertexUtils.segIdxBlock]

/-- C5 witness: segment 1 of a 3-sample window, corner 2 and index slot 1,
as produced by the amended quad-structure theorem. -/
theorem createVertexDataFromAudio_quads_witness :
    ((WoscopeVertexUtils.createVertexDataFromAudio [1, 2, 3] [4, 5, 6] 0
        ⟨3, 1, 1, false, false⟩).vertices.getD ((1 * 4 + 2) * 5 + 4) 0
      = ((1 * 4 + 2 : Nat) : ℚ)) ∧
    ((WoscopeVertexUtils.createVertexDataFromAudio [1, 2, 3] [4, 5, 6] 0
        ⟨3, 1, 1, false, false⟩).indices.getD (1 * 6 + 1) 0
      = [1 * 4, 1 * 4 + 1, 1 * 4 + 2, 1 * 4 + 1, 1 * 4 + 2, 1 * 4 + 3].getD 1 0 % 65536) := by
  have hi : 1 < (WoscopeVertexUtils.createVertexDataFromAudio [1, 2, 3] [4, 5, 6] 0
      ⟨3, 1, 1, false, false⟩).numSegments := by
    rw [WoscopeVertexUtils.createVertexDataFromAudio_pos _ _ _ _ (by simp)]
    simp
  have h := createVertexDataFromAudio_quads [1, 2, 3] [4, 5, 6] 0
    ⟨3, 1, 1, false, false⟩ 1 hi
  exact ⟨h.2.1 2 (by norm_num), h.2.2 1 (by norm_num)⟩

/-- C6 counterexample: with a 3-sample sweep window (`numSegments = 2`,
`timeScale = 1`), segment `i = 1` starts at `1/(2-1) = 1`, not at
`i/numSegments × timeScale = 1/2` as claimed. -/
theorem sweep_ramp_counterexample :
    (WoscopeVertexUtils.createVertexDataFromAudio [0, 0, 0] [0, 0, 0] 0
        ⟨3, 1, 1, true, false⟩).vertices.getD (1 * 4 * 5 + 0) 0
      ≠ ((1 : ℚ) / 2) * 1 := by
  rw [WoscopeVertexUtils.createVertexDataFromAudio_pos _ _ _ _ (by simp)]
  dsimp only
  have hn : ((min ((3 : Nat) : Int)
      ((([0, 0, 0] : List ℚ).length : Int) - ((0 : Nat) : Int)) - 1)).toNat = 2 := by
    simp
  rw [hn]
  rw [rangeFlat_getD _ 20 (fun j => WoscopeVertexUtils.segBlock_length [0, 0, 0] [0, 0, 0]
    0 ⟨3, 1, 1, true, false⟩ 2 j) 0 2 1 0 (by norm_num) (by norm_num)]
  simp [WoscopeVertexUtils.segBlock, WoscopeVertexUtils.segT1]

/-- C6 (amended). In sweep mode, for every window with `numSegments ≥ 2` and
every segment `i`, the first coordinate of the segment's start endpoint is
`i/(numSegments-1) × timeScale` and that of its end endpoint is
`(i+1)/(numSegments-1) × timeScale`.  (The code divides by `numSegments - 1`, not
`numSegments`; at `numSegments = 1` the JS code divides by zero, producing
non-finite coordinates, hence the restriction.) -/
theorem sweep_ramp (left right : List ℚ) (startSample : Nat) (cfg : WoscopeConfig)
    (hsweep : cfg.sweep = true) (i : Nat)
    (hi : i < (WoscopeVertexUtils.createVertexDataFromAudio left right startSample
        cfg).numSegments) :
    (WoscopeVertexUtils.createVertexDataFromAudio left right startSample
        cfg).vertices.getD (i * 4 * 5 + 0) 0
      = ((i : ℚ) / (((WoscopeVertexUtils.createVertexDataFromAudio left right startSample
          cfg).numSegments : ℚ) - 1)) * cfg.timeScale ∧
    (WoscopeVertexUtils.createVertexDataFromAudio left right startSample
        cfg).vertices.getD (i * 4 * 5 + 2) 0
      = (((i : ℚ) + 1) / (((WoscopeVertexUtils.createVertexDataFromAudio left right
          startSample cfg).numSegments : ℚ) - 1)) * cfg.timeScale := by
  by_cases hL : 2 ≤ min (cfg.nSamples : Int) ((left.length : Int) - (startSample : Int))
  swap
  · exfalso
    rw [WoscopeVertexUtils.createVertexDataFromAudio_neg left right startSample cfg
      (by omega)] at hi
    exact absurd hi (by simp)
  rw [WoscopeVertexUtils.createVertexDataFromAudio_pos left right startSample cfg hL] at hi ⊢
  dsimp only at hi ⊢
  constructor
  · have e1 : i * 4 * 5 + 0 = i * 20 + 0 := by ring
    rw [e1]
    rw [rangeFlat_getD _ 20 (fun j => WoscopeVertexUtils.segBlock_length left right
      startSample cfg _ j) 0 _ i (0) hi (by omega)]
    simp [WoscopeVertexUtils.segBlock, WoscopeVertexUtils.segT1, hsweep]
  · have e2 : i * 4 * 5 + 2 = i * 20 + 2 := by ring
    rw [e2]
    rw [rangeFlat_getD _ 20 (fun j => WoscopeVertexUtils.segBlock_length left right
      startSample cfg _ j) 0 _ i (2) hi (by omega)]
    simp [WoscopeVertexUtils.segBlock, WoscopeVertexUtils.segT2, hsweep]

/-- C6 witness: segment 1 of a concrete 3-sample sweep window starts at
`1/(2-1) × timeScale`. -/
theorem sweep_ramp_witness :
    (WoscopeVertexUtils.createVertexDataFromAudio [0, 0, 0] [0, 0, 0] 0
        ⟨3, 1, 1, true, false⟩).vertices.getD (1 * 4 * 5 + 0) 0
      = ((1 : ℚ) / (((WoscopeVertexUtils.createVertexDataFromAudio [0, 0, 0] [0, 0, 0] 0
          ⟨3, 1, 1, true, false⟩).numSegments : ℚ) - 1)) * 1 := by
  have hi : 1 < (WoscopeVertexUtils.createVertexDataFromAudio [0, 0, 0] [0, 0, 0] 0
      ⟨3, 1, 1, true, false⟩).numSegments := by
    rw [WoscopeVertexUtils.createVertexDataFromAudio_pos _ _ _ _ (by simp)]
    simp
  exact (sweep_ramp [0, 0, 0] [0, 0, 0] 0 ⟨3, 1, 1, true, false⟩ rfl 1 hi).1

namespace Shaders

noncomputable section

lemma smoothstep_of_ge (e0 e1 x : ℝ) (h01 : 0 < e1 - e0) (hx : e1 ≤ x) :
    smoothstep e0 e1 x = 1 := by
  unfold smoothstep glslClamp
  have h1 : (1 : ℝ) ≤ (x - e0) / (e1 - e0) := by
    rw [le_div_iff₀ h01]
    linarith
  rw [max_eq_left (by linarith), min_eq_right h1]
  ring

lemma smoothstep_of_le (e0 e1 x : ℝ) (h01 : 0 < e1 - e0) (hx : x ≤ e0) :
    smoothstep e0 e1 x = 0 := by
  unfold smoothstep glslClamp
  have h1 : (x - e0) / (e1 - e0) ≤ 0 := by
    apply div_nonpos_of_nonpos_of_nonneg <;> linarith
  rw [max_eq_right h1, min_eq_left (by norm_num)]
  ring

/-- C7 counterexample: at `aIdx = 2` (segment 0, corner 2) with `uN = 1`, the
shaders' afterglow factor is `1` (the vertex stage passes
`floor(aIdx/4 + 0.5) = 1` and the fragment edge is `0.33`), while the claim's
formula `smoothstep(0, 1/3, floor(aIdx/4)/max(1, uN))` gives `0`. -/
theorem afterglow_counterexample :
    fsAfterglow (vsUvlW 2) 1
      ≠ smoothstep 0 (1 / 3) (((⌊(2 : ℝ) / 4⌋ : ℤ) : ℝ) / max 1 1) := by
  have h1 : vsUvlW 2 = 1 := by
    unfold vsUvlW
    norm_num
  have h2 : fsAfterglow (vsUvlW 2) 1 = 1 := by
    rw [h1]
    unfold fsAfterglow
    rw [max_self, div_one]
    exact smoothstep_of_ge 0 0.33 1 (by norm_num) (by norm_num)
  have h3 : smoothstep 0 (1 / 3) (((⌊(2 : ℝ) / 4⌋ : ℤ) : ℝ) / max 1 1) = 0 := by
    have hf : (⌊(2 : ℝ) / 4⌋ : ℤ) = 0 := by norm_num
    rw [hf, max_self]
    norm_num
    exact smoothstep_of_le 0 (1 / 3) 0 (by norm_num) le_rfl
  rw [h2, h3]
  norm_num

/-- C7 (amended). For every fragment, the computed alpha is multiplied by an
afterglow factor equal to `smoothstep(0, 0.33, vAge / max(1, totalSegmentCount))`,
where `vAge = floor(aIdx/4 + 0.5)` is the rounded index from the vertex stage —
equal to `i` for corners 0,1 and `i+1` for corners 2,3 of segment `i` — and
`totalSegmentCount` is the `uN` uniform. -/
theorem afterglow_formula (i c : Nat) (hc : c < 4)
    (uN uI len tang side uSize : ℝ) :
    vsUvlW ((4 * i + c : Nat) : ℝ) = (i : ℝ) + (if 2 ≤ c then 1 else 0) ∧
    fsAlpha len tang side (vsUvlW ((4 * i + c : Nat) : ℝ)) uSize uI uN
      = fsBaseAlpha len tang side uSize
        * (smoothstep 0 0.33 (((i : ℝ) + (if 2 ≤ c then 1 else 0)) / max 1 uN) * uI) := by
  have key : vsUvlW ((4 * i + c : Nat) : ℝ) = (i : ℝ) + (if 2 ≤ c then 1 else 0) := by
    unfold vsUvlW
    have e : ((4 * i + c : Nat) : ℝ) / 4 + 0.5 = ((i : ℕ) : ℝ) + ((c : ℝ) / 4 + 0.5) := by
      push_cast
      ring
    rw [e, Int.floor_nat_add]
    push_cast
    interval_cases c <;> norm_num
  refine ⟨key, ?_⟩
  unfold fsAlpha fsAfterglow
  rw [key]

/-- C7 witness: the amended afterglow law at segment 3, corner 2, `uN = 5`. -/
theorem afterglow_formula_witness :
    vsUvlW ((4 * 3 + 2 : Nat) : ℝ) = (3 : ℝ) + (if 2 ≤ 2 then 1 else 0) ∧
    fsAlpha 0 1 (-1) (vsUvlW ((4 * 3 + 2 : Nat) : ℝ)) 1 2 5
      = fsBaseAlpha 0 1 (-1) 1
        * (smoothstep 0 0.33 (((3 : ℝ) + (if 2 ≤ 2 then 1 else 0)) / max 1 5) * 2) :=
  afterglow_formula 3 2 (by norm_num) 5 2 0 1 (-1) 1

/-- C8. A degenerate segment (`start = end`, so the vertex stage passes
`uvl.z = 0 < EPS`) makes the fragment stage take the plain 2D-Gaussian fallback
branch `exp(-|xy|²/(2σ²))/2/sqrt(uSize)` with `σ = uSize/4` — a formula with no
division by the segment length — and for every beam half-width `uSize > 0` the
resulting alpha is strictly positive (finite and non-NaN: it is a real number). -/
theorem degenerate_segment_alpha (s e : ℝ × ℝ) (tang side uSize : ℝ)
    (hse : s = e) (hU : 0 < uSize) :
    vsUvlZ s e = 0 ∧
    fsBaseAlpha (vsUvlZ s e) tang side uSize
      = gaussFallbackAlpha (fsXY 0 tang side uSize) uSize ∧
    gaussFallbackAlpha (fsXY 0 tang side uSize) uSize
      = Real.exp (-((uSize * tang) ^ 2 + (uSize * side) ^ 2) / (2 * (uSize / 4) ^ 2))
          / 2 / Real.sqrt uSize ∧
    0 < fsBaseAlpha (vsUvlZ s e) tang side uSize := by
  have hz : vsUvlZ s e = 0 := by
    subst hse
    unfold vsUvlZ
    simp
  have hxy : fsXY 0 tang side uSize = (uSize * tang, uSize * side) := by
    unfold fsXY
    norm_num
  have hbranch : fsBaseAlpha (vsUvlZ s e) tang side uSize
      = gaussFallbackAlpha (fsXY 0 tang side uSize) uSize := by
    rw [hz]
    unfold fsBaseAlpha
    rw [if_pos (by norm_num [EPS])]
  have hval : gaussFallbackAlpha (fsXY 0 tang side uSize) uSize
      = Real.exp (-((uSize * tang) ^ 2 + (uSize * side) ^ 2) / (2 * (uSize / 4) ^ 2))
          / 2 / Real.sqrt uSize := by
    rw [hxy]
    unfold gaussFallbackAlpha
    rw [Real.sq_sqrt (by positivity)]
  refine ⟨hz, hbranch, hval, ?_⟩
  rw [hbranch, hval]
  have hs : 0 < Real.sqrt uSize := Real.sqrt_pos.mpr hU
  positivity

/-- C8 witness: a concrete degenerate segment at `uSize = 0.012` yields a
strictly positive fallback alpha. -/
theorem degenerate_segment_alpha_witness :
    vsUvlZ ((1 / 2 : ℝ), (1 / 2 : ℝ)) ((1 / 2 : ℝ), (1 / 2 : ℝ)) = 0 ∧
    0 < fsBaseAlpha
        (vsUvlZ ((1 / 2 : ℝ), (1 / 2 : ℝ)) ((1 / 2 : ℝ), (1 / 2 : ℝ))) 1 (-1) 0.012 := by
  have h := degenerate_segment_alpha ((1 / 2 : ℝ), (1 / 2 : ℝ))
    ((1 / 2 : ℝ), (1 / 2 : ℝ)) 1 (-1) 0.012 rfl (by norm_num)
  exact ⟨h.1, h.2.2.2⟩

/-- C9. Whenever a frame draws (`drawIndices ≥ 1`, which forces a configured
`nSamples ≥ 2`), the renderer's `computeNormalizedIntensity` equals the spec's
`clamp(sqrt(expectedIndexCount / actualIndexCount), 0.5, 2.0)` with
`expectedIndexCount = (nSamples - 1) × 6` and `actualIndexCount = drawIndices`,
and this value is assigned to the `uIntensity` uniform. -/
theorem computeNormalizedIntensity_spec (nSamples drawIndices : Nat)
    (h2 : 2 ≤ nSamples) (h1 : 1 ≤ drawIndices) :
    computeNormalizedIntensity nSamples drawIndices
      = specNormalizedIntensity nSamples drawIndices := by
  unfold computeNormalizedIntensity specNormalizedIntensity
  rw [if_neg (by omega)]
  dsimp only
  have hmax1 : max 1 ((nSamples - 1) * 6) = (nSamples - 1) * 6 := by omega
  have hmax2 : max 1 drawIndices = drawIndices := by omega
  rw [hmax1, hmax2]
  have hcast : (((nSamples - 1) * 6 : Nat) : ℝ) = ((nSamples : ℝ) - 1) * 6 := by
    rw [Nat.cast_mul, Nat.cast_sub (by omega)]
    norm_num
  rw [hcast]

/-- C9 witness: the default configuration `nSamples = 1024` with a minimal
6-index draw matches the spec's formula. -/
theorem computeNormalizedIntensity_spec_witness :
    computeNormalizedIntensity 1024 6 = specNormalizedIntensity 1024 6 :=
  computeNormalizedIntensity_spec 1024 6 (by norm_num) (by norm_num)

end

end Shaders
